import Mathlib

/-!
Shallow embedding of the record-conversion and transactional-posting core of
target_xero (src/target_xero/__init__.py), together with theorems checking the
natural-language specification against it.

Conventions of the embedding:
* Python dicts with string keys are modelled by `Dict α`, an association list
  where insertion conses to the front, so lookup (`Dict.get?`) returns the most
  recently inserted binding — the observable behaviour of dict assignment.
* Python exceptions are modelled by `Except`: a function that can raise returns
  `Except E A`.
* Remote calls (`client.push`) are driven by an oracle `Nat → result`, indexed
  by the number of push calls issued so far in the run, and the sequence of
  issued calls is returned as an explicit trace.
-/

set_option autoImplicit false

namespace TargetXero

/-- Python dict with string keys: association list, most recent insertion first. -/
abbrev Dict (α : Type) : Type := List (String × α)

/-- Dict lookup: value of the most recently inserted binding for the key, like
Python d.get(k). -/
def dget {α : Type} (d : Dict α) (k : String) : Option α :=
  match d with
  | [] => none
  | (k', v) :: rest => if k' = k then some v else dget rest k

/-- Raw account record as fetched from the remote service (acc_list element):
its Code may be null (Python None). -/
structure Account where
  Name : String
  Code : Option String
deriving Repr, DecidableEq

/-- Value stored in the accounts lookup map (acc_ref in upload_journals):
a Name/Code pair; by construction the Code is present. -/
structure AccRef where
  Name : String
  Code : String
deriving Repr, DecidableEq

/-- Tracking category option reference, the value stored in the categories map:
the owning category Name and the Option name. -/
structure TrackingRef where
  Name : String
  Option : String
deriving Repr, DecidableEq

/-- Raw tracking category record (cat_list element): category name and the
names of its options. -/
structure Category where
  Name : String
  Options : List String
deriving Repr, DecidableEq

/-- One iteration of the accounts loop of upload_journals, lines 232-243:
skip an account whose Code is None; otherwise insert the same acc_ref value
under the code key and then under the name key. -/
def process_accounts_step (accounts : Dict AccRef) (account : Account) :
    Dict AccRef :=
  match account.Code with
  | none => accounts
  | some code =>
      let acc_ref : AccRef := ⟨account.Name, code⟩
      -- accounts[code] = acc_ref; accounts[name] = acc_ref
      (account.Name, acc_ref) :: (code, acc_ref) :: accounts

/-- Accounts index builder, upload_journals lines 230-243. -/
def process_accounts (acc_list : List Account) : Dict AccRef :=
  acc_list.foldl process_accounts_step []

/-- Categories index builder, upload_journals lines 246-256: flatten every
category option into one map keyed by option name. -/
def process_categories (cat_list : List Category) : Dict TrackingRef :=
  cat_list.foldl
    (fun categories category =>
      category.Options.foldl
        (fun categories option => (option, ⟨category.Name, option⟩) :: categories)
        categories)
    []

/-! ## Entry builder (load_journal_entries and its nested build_lines) -/

/-- Python str.lower, modelled on the character list underlying the string. -/
def pyLower (s : String) : String := ⟨s.data.map Char.toLower⟩

/-- The optional dimension column names taken from the config dict
(department, location, customer_id, customer_name); a field is none when the
config has no such key. -/
structure Config where
  department : Option String := none
  location : Option String := none
  customer_id : Option String := none
  customer_name : Option String := none
deriving Repr, DecidableEq

/-- One row of the JournalEntries.csv dataframe, after the date-normalization
step (pd.to_datetime + strftime, an external library call) has rewritten the
Transaction Date column to YYYY-MM-DD form. accountNumber is the result of
str(row['Account Number']); empty cells of string columns are modelled by "".
extra carries any further (dimension) columns of the frame. -/
structure Row where
  transactionDate : String
  journalEntryId : String
  Class : String
  accountNumber : String
  accountName : String
  postingType : String
  description : String
  amount : Int
  extra : Dict String := []
deriving Repr, DecidableEq

/-- Column access on a row, row[col]: the named columns first, then the extra
columns. Returns none when the column is not in row.index. (The Amount column
is numeric; looking its value up in the string-keyed categories dict can never
hit, which coincides with returning none here.) -/
def Row.col? (row : Row) (col : String) : Option String :=
  if col = "Transaction Date" then some row.transactionDate
  else if col = "Journal Entry Id" then some row.journalEntryId
  else if col = "Class" then some row.Class
  else if col = "Account Number" then some row.accountNumber
  else if col = "Account Name" then some row.accountName
  else if col = "Posting Type" then some row.postingType
  else if col = "Description" then some row.description
  else dget row.extra col

/-- Built line item. The AccountCode key is added to the dict only in the
resolution-success branch, so its absence is modelled by none; an absent
Tracking key is modelled by the empty list. -/
structure LineItem where
  Description : String
  LineAmount : Int
  AccountCode : Option String := none
  Tracking : List TrackingRef := []
deriving Repr, DecidableEq

/-- add_tracking, lines 70-74: append to the Tracking list (creating it on
first use). -/
def add_tracking (line_item : LineItem) (tracking : TrackingRef) : LineItem :=
  { line_item with Tracking := line_item.Tracking ++ [tracking] }

/-- Built journal entry, lines 162-167. -/
structure Entry where
  Date : String
  Status : String
  Narration : String
  JournalLines : List LineItem
deriving Repr, DecidableEq

/-- Failure modes of load_journal_entries. schemaError carries the process
exit status of the sys.exit(1) call; the two account errors carry the data
interpolated into their exception messages; conversionError is the
post-grouping raise Exception("Building Xero JournalEntries failed!"). -/
inductive JournalError where
  | schemaError (exitCode : Nat)
  | missingAccountRef (je_id : String)
  | accountResolution (je_id : String) (acct_name : String) (acct_num : String)
  | conversionError
deriving Repr, DecidableEq

/-- Resolution of one optional dimension, lines 127-156 (all four blocks have
the same shape): when the config names a column and the row has that column,
look the value up in the categories map and append the tracking reference on a
hit; a miss is silent. -/
def add_dimension (col? : Option String) (row : Row)
    (categories : Dict TrackingRef) (line_item : LineItem) : LineItem :=
  match col? with
  | none => line_item
  | some col =>
      match row.col? col with
      | none => line_item
      | some value =>
          match dget categories value with
          | some tracking => add_tracking line_item tracking
          | none => line_item

/-- The account code computed at line 103:
accounts.get(acct_num, accounts.get(acct_name, default)).get("Code") — the
number key is consulted first, the name key only decides the result when the
number key misses. -/
def resolve_acct_code (accounts : Dict AccRef) (acct_num acct_name : String) :
    Option String :=
  match dget accounts acct_num with
  | some acc_ref => some acc_ref.Code
  | none =>
      match dget accounts acct_name with
      | some acc_ref => some acc_ref.Code
      | none => none

/-- The class-dimension block of lines 116-124: look the Class value up in the
categories map and append the tracking reference on a hit; a miss only logs a
warning. -/
def add_class_tracking (categories : Dict TrackingRef) (row : Row)
    (line_item : LineItem) : LineItem :=
  match dget categories row.Class with
  | some tracking => add_tracking line_item tracking
  | none => line_item

/-- Body of the per-row loop of build_lines, lines 83-159: signed amount,
missing-reference check, mandatory account resolution (number key first, name
key as fallback), class tracking, then the four optional dimensions. -/
def build_line_item (config : Config) (accounts : Dict AccRef)
    (categories : Dict TrackingRef) (je_id : String) (row : Row) :
    Except JournalError LineItem :=
  -- line_amt = abs(row['Amount']); negated when posting_type.lower()=='credit'
  let posting_type := row.postingType
  let line_amt : Int := |row.amount|
  let line_amt : Int := if pyLower posting_type = "credit" then -1 * line_amt else line_amt
  let line_item : LineItem := { Description := row.description, LineAmount := line_amt }
  -- acct_num = str(row['Account Number']); acct_name = row['Account Name']
  let acct_num := row.accountNumber
  let acct_name := row.accountName
  -- if not acct_num and not acct_name: raise (before any lookup)
  if acct_num = "" ∧ acct_name = "" then
    Except.error (JournalError.missingAccountRef je_id)
  else
    match resolve_acct_code accounts acct_num acct_name with
    | none => Except.error (JournalError.accountResolution je_id acct_name acct_num)
    | some code =>
        let line_item := { line_item with AccountCode := some code }
        let line_item := add_class_tracking categories row line_item
        let line_item := add_dimension config.department row categories line_item
        let line_item := add_dimension config.location row categories line_item
        let line_item := add_dimension config.customer_id row categories line_item
        let line_item := add_dimension config.customer_name row categories line_item
        Except.ok line_item

/-- The per-row for loop of build_lines (lines 83-159): build each line item
in row order; the first raise aborts the whole run, so an error of an earlier
row wins. -/
def build_items (config : Config) (accounts : Dict AccRef)
    (categories : Dict TrackingRef) (je_id : String) :
    List Row → Except JournalError (List LineItem)
  | [] => Except.ok []
  | row :: rest =>
      match build_line_item config accounts categories je_id row with
      | Except.error e => Except.error e
      | Except.ok line_item =>
          match build_items config accounts categories je_id rest with
          | Except.error e => Except.error e
          | Except.ok line_items => Except.ok (line_item :: line_items)

/-- The je_id of a group x: x['Journal Entry Id'].iloc[0], the first row's
entry id (line 78). The groups produced by groupby are never empty, so the ""
default for the empty list is never exercised. -/
def head_je_id (rows : List Row) : String :=
  match rows.head? with
  | some r => r.journalEntryId
  | none => ""

/-- The date left in the loop variable row after iterating a group: the last
row's Transaction Date (line 163). -/
def last_date (rows : List Row) : String :=
  match rows.getLast? with
  | some r => r.transactionDate
  | none => ""

/-- build_lines, lines 76-169, applied to one group of rows sharing a journal
entry id: build the line items in row order, then assemble the entry. -/
def build_lines (config : Config) (accounts : Dict AccRef)
    (categories : Dict TrackingRef) (rows : List Row) :
    Except JournalError Entry :=
  match build_items config accounts categories (head_je_id rows) rows with
  | Except.error e => Except.error e
  | Except.ok line_items =>
      Except.ok { Date := last_date rows, Status := "POSTED",
                  Narration := head_je_id rows, JournalLines := line_items }

/-- Lexicographic comparison of character lists by code point, the string
order Python (and hence the pandas sort of the group keys) uses. -/
def chars_lt : List Char → List Char → Bool
  | _, [] => false
  | [], _ :: _ => true
  | a :: as, b :: bs => if a < b then true else if b < a then false else chars_lt as bs

/-- Strict lexicographic string comparison by code point. -/
def str_lt (a b : String) : Bool := chars_lt a.data b.data

/-- Insertion of a key into an ascending list of distinct keys, keeping it
ascending and distinct. -/
def insert_key (k : String) : List String → List String
  | [] => [k]
  | k' :: rest =>
      if k = k' then k' :: rest
      else if str_lt k k' then k :: k' :: rest
      else k' :: insert_key k rest

/-- The distinct journal entry ids of the input rows in ascending order:
df.groupby sorts the group keys (pandas default sort=True, pandas 1.1.3 per
setup.py), so apply visits the groups in ascending key order, not in
first-seen order. -/
def group_keys (rows : List Row) : List String :=
  rows.foldl (fun ks row => insert_key row.journalEntryId ks) []

/-- The groupby.apply pass of line 175: visit the (sorted) group keys in
order, running build_lines on the rows of each group (which keep their input
order); the first raise aborts the run. -/
def build_groups (config : Config) (accounts : Dict AccRef)
    (categories : Dict TrackingRef) (rows : List Row) :
    List String → Except JournalError (List Entry)
  | [] => Except.ok []
  | k :: keys =>
      match build_lines config accounts categories
          (rows.filter (fun r => r.journalEntryId = k)) with
      | Except.error e => Except.error e
      | Except.ok entry =>
          match build_groups config accounts categories rows keys with
          | Except.error e => Except.error e
          | Except.ok entries => Except.ok (entry :: entries)

/-- Required CSV columns, lines 59-60. -/
def REQUIRED_COLS : List String :=
  ["Transaction Date", "Journal Entry Id", "Class",
   "Account Number", "Account Name", "Posting Type", "Description"]

/-- load_journal_entries, lines 52-183. cols is the column list of the read
CSV and rows its parsed rows. The schema check runs first (sys.exit(1) on a
missing column, modelled as schemaError 1). Grouping follows pandas groupby
semantics: groups visited in ascending key order, rows of a group in input
order. The errored flag of line 68 is reassigned only inside the nested
function build_lines (line 108); in Python an assignment inside a nested def
without a nonlocal declaration binds a variable local to that def, so the
enclosing flag read at line 177 never becomes True (and the raise at line 112
aborts the run first in any case): the flag stays false here. -/
def load_journal_entries (config : Config) (accounts : Dict AccRef)
    (categories : Dict TrackingRef) (cols : List String) (rows : List Row) :
    Except JournalError (List Entry) :=
  if !(REQUIRED_COLS.all (fun col => cols.contains col)) then
    Except.error (JournalError.schemaError 1)
  else
    match build_groups config accounts categories rows (group_keys rows) with
    | Except.error e => Except.error e
    | Except.ok journal_entries =>
        let errored := false
        if errored then Except.error JournalError.conversionError
        else Except.ok journal_entries

/-! ## Batch poster (post_journal_entries, lines 186-221)

client.push is driven by an oracle indexed by the number of push calls issued
so far in the run; the embedding returns the sequence of issued calls as a
trace together with the terminal outcome. -/

/-- Decoded response of one Manual_Journals push. isValidationFault models
res["Type"] == "ValidationException" and "Elements" in res (lines 194-196,
which only log); manualJournalID models
res["ManualJournals"][0]["ManualJournalID"] when that path exists, none when
any step of it is missing (KeyError/IndexError at line 198). -/
structure PJResponse where
  isValidationFault : Bool
  manualJournalID : Option String
deriving Repr, DecidableEq

/-- Result of one client.push call on the journal path: error e when the call
(or res.json()) raises with message e, ok when it returns a decoded response.
The XeroClient itself (target_xero/client.py) is not part of src; this is the
interface shape the spec gives for the submission capability. -/
abbrev PushResult := Except String PJResponse

/-- One issued remote call of the journal-posting run. -/
inductive XCall (α : Type) where
  | submit (journal : α)
  | void (id : String)
deriving Repr, DecidableEq

/-- Terminal outcome of post_journal_entries: normal return, the raise
Exception("Posting Xero JournalEntries failed! ...") at line 221, or an
exception escaping the voiding loop (the pushes of lines 213-217 are not
wrapped in any try, so a voiding failure propagates and the remaining voids
are skipped). -/
inductive PostOutcome where
  | ok
  | postingError
  | uncaught (msg : String)
deriving Repr, DecidableEq

/-- The compensation loop of lines 213-217: void every posted id in posting
order, each void being one push call; an exception from a void push aborts the
loop at that point. -/
def void_posted {α : Type} (oracle : Nat → PushResult) (c : Nat)
    (posted : List String) (trace : List (XCall α)) :
    List (XCall α) × Nat × Option String :=
  match posted with
  | [] => (trace, c, none)
  | id :: rest =>
      let trace := trace ++ [XCall.void id]
      match oracle c with
      | Except.error e => (trace, c + 1, some e)
      | Except.ok _ => void_posted oracle (c + 1) rest trace

/-- The posting loop of post_journal_entries. A submission fails when the push
raises or when the decoded response lacks the ManualJournals identifier path;
a validation-fault response is only logged (lines 194-196) and does not by
itself change control flow. On failure: void all posted ids, then raise. -/
def post_loop {α : Type} (oracle : Nat → PushResult) (journals : List α)
    (c : Nat) (posted : List String) (trace : List (XCall α)) :
    List (XCall α) × PostOutcome :=
  match journals with
  | [] => (trace, PostOutcome.ok)
  | journal :: rest =>
      let trace := trace ++ [XCall.submit journal]
      match oracle c with
      | Except.error _ =>
          match void_posted oracle (c + 1) posted trace with
          | (trace2, _, some e2) => (trace2, PostOutcome.uncaught e2)
          | (trace2, _, none) => (trace2, PostOutcome.postingError)
      | Except.ok res =>
          match res.manualJournalID with
          | some id => post_loop oracle rest (c + 1) (posted ++ [id]) trace
          | none =>
              match void_posted oracle (c + 1) posted trace with
              | (trace2, _, some e2) => (trace2, PostOutcome.uncaught e2)
              | (trace2, _, none) => (trace2, PostOutcome.postingError)

/-- post_journal_entries, lines 186-221. -/
def post_journal_entries {α : Type} (oracle : Nat → PushResult)
    (journals : List α) : List (XCall α) × PostOutcome :=
  post_loop oracle journals 0 [] []

/-! ## Transaction uploader (upload_transactions, lines 266-303)

Only the submission loop (lines 277-303 minus the reference-resolution
warnings, which never fail) decides the claims; transactions are opaque. -/

/-- Response of one Bank_Transactions push: status_code and the json body
written to the log file are from the source; bankTransactionIDs models the
BankTransactionID fields collected from res["BankTransactions"] at line 303.
Modelled from the spec: the response type of XeroClient.push
(target_xero/client.py is not part of src), which per the interface section
returns the posted records from which the identifiers are read. -/
structure TxResponse where
  status_code : Nat
  body : String
  bankTransactionIDs : List String
deriving Repr, DecidableEq

/-- One issued remote call of the transaction-upload run. -/
inductive TxCall (α : Type) where
  | submit (transaction : α)
  | delete (id : String)
deriving Repr, DecidableEq

/-- Observable result of upload_transactions: the issued calls, the content
written to the diagnostic log file (none when no failure occurred), and the
final pushed_ids accumulator. -/
structure TxResult (α : Type) where
  trace : List (TxCall α)
  logFile : Option String
  pushed_ids : List String
deriving Repr, DecidableEq

/-- The submission loop of upload_transactions, lines 277-303: push each
transaction in order; when res.status_code > 300, write res.json() to the log
file, push a DELETED update for every id pushed so far, and break; otherwise
extend pushed_ids with the returned transaction ids and continue. -/
def upload_tx_loop {α : Type} (oracle : Nat → TxResponse)
    (transactions : List α) (c : Nat) (pushed_ids : List String)
    (trace : List (TxCall α)) : TxResult α :=
  match transactions with
  | [] => ⟨trace, none, pushed_ids⟩
  | transaction :: rest =>
      if (oracle c).status_code > 300 then
        ⟨trace ++ [TxCall.submit transaction] ++ pushed_ids.map TxCall.delete,
         some (oracle c).body, pushed_ids⟩
      else
        upload_tx_loop oracle rest (c + 1)
          (pushed_ids ++ (oracle c).bankTransactionIDs)
          (trace ++ [TxCall.submit transaction])

/-- upload_transactions, lines 266-303 (submission loop, transactions opaque). -/
def upload_transactions {α : Type} (oracle : Nat → TxResponse)
    (transactions : List α) : TxResult α :=
  upload_tx_loop oracle transactions 0 [] []

/-! ## Comparison definitions and concrete fixtures -/

/-- First-seen (insertion) order of the entry identifiers, the group order the
spec asserts; written from the spec wording for comparison with the sorted
order group_keys produces. -/
def first_seen_keys (rows : List Row) : List String :=
  rows.foldl
    (fun ks row =>
      if ks.contains row.journalEntryId then ks else ks ++ [row.journalEntryId])
    []

/-- Two accounts contribute disjoint index keys: whenever both carry a code,
neither the code nor the name of one equals the code or the name of the other. -/
def account_keys_disjoint (a b : Account) : Bool :=
  match a.Code, b.Code with
  | some ca, some cb => cb != ca && cb != a.Name && b.Name != ca && b.Name != a.Name
  | _, _ => true

/-- The ids accumulated from the bank-transaction responses of push calls
c, c+1, ..., c+n-1, in posting order. -/
def collect_ids (oracle : Nat → TxResponse) (c : Nat) : Nat → List String
  | 0 => []
  | n + 1 => (oracle c).bankTransactionIDs ++ collect_ids oracle (c + 1) n

/-- Fixture: accounts index over two coded accounts. -/
def fxAccounts : Dict AccRef :=
  process_accounts [⟨"Cash", some "100"⟩, ⟨"Rev", some "200"⟩]

/-- Fixture: categories index with one category and one option. -/
def fxCategories : Dict TrackingRef := process_categories [⟨"Dept", ["Sales"]⟩]

/-- Fixture: a debit row that resolves against fxAccounts. -/
def fxRowDebit : Row :=
  { transactionDate := "2024-01-05", journalEntryId := "JE1", Class := "Sales",
    accountNumber := "100", accountName := "Cash", postingType := "Debit",
    description := "x", amount := 50 }

/-- Fixture: a credit row that resolves against fxAccounts. -/
def fxRowCredit : Row :=
  { fxRowDebit with accountNumber := "200", accountName := "Rev",
                    postingType := "Credit", description := "y" }

/-- Fixture: the credit row carrying a different (later) normalized date. -/
def fxRowLater : Row := { fxRowCredit with transactionDate := "2024-02-02" }

/-- Fixture: debit row under entry id B. -/
def fxRowB : Row := { fxRowDebit with journalEntryId := "B" }

/-- Fixture: credit row under entry id A. -/
def fxRowA : Row := { fxRowCredit with journalEntryId := "A" }

/-- Fixture: a row of entry A whose account number and name resolve nowhere. -/
def fxRowBad : Row :=
  { fxRowDebit with journalEntryId := "A", accountNumber := "999",
                    accountName := "Ghost" }

/-- Fixture: a row with neither account number nor account name. -/
def fxRowBlank : Row :=
  { fxRowDebit with accountNumber := "", accountName := "" }

/-- Fixture posting oracle: first submission returns the id id1, the second
returns a response lacking the identifier path, every later call (the voids)
returns a plain response. -/
def fxOracleFail : Nat → PushResult := fun c =>
  if c = 0 then Except.ok ⟨false, some "id1"⟩
  else if c = 1 then Except.ok ⟨false, none⟩
  else Except.ok ⟨false, none⟩

/-- Fixture posting oracle: every submission returns a validation-fault
response that nevertheless carries a journal identifier. -/
def fxOracleValid : Nat → PushResult := fun _ => Except.ok ⟨true, some "idX"⟩

/-- Fixture transaction oracle: first push answers with status 300 (posting
ids x1), the second with status 301 and diagnostic body ERR2. -/
def fxTxOracle : Nat → TxResponse := fun c =>
  if c = 0 then ⟨300, "OK1", ["x1"]⟩ else ⟨301, "ERR2", ["x2"]⟩

/-- Fixture transaction oracle: every push answers with status exactly 300. -/
def fxTxOracle300 : Nat → TxResponse := fun _ => ⟨300, "ERR", ["x1"]⟩

/-- Fixture: the line item built from fxRowDebit (and fxRowB). -/
def fxLineDebit : LineItem := ⟨"x", 50, some "100", [⟨"Dept", "Sales"⟩]⟩

/-- Fixture: the line item built from fxRowCredit (and fxRowA, fxRowLater). -/
def fxLineCredit : LineItem := ⟨"y", -50, some "200", [⟨"Dept", "Sales"⟩]⟩

/-- Fixture: the entry built from the group of fxRowDebit and fxRowLater. -/
def fxEntryLater : Entry := ⟨"2024-02-02", "POSTED", "JE1", [fxLineDebit, fxLineCredit]⟩

/-- Fixture: the entry built from fxRowA. -/
def fxEntryA : Entry := ⟨"2024-01-05", "POSTED", "A", [fxLineCredit]⟩

/-- Fixture: the entry built from fxRowB. -/
def fxEntryB : Entry := ⟨"2024-01-05", "POSTED", "B", [fxLineDebit]⟩

/-- Fixture: an account list in which the second account's code collides with
the first account's name. -/
def fxCollidingAccounts : List Account :=
  [⟨"Cash", some "100"⟩, ⟨"X", some "Cash"⟩]

/-! ## Helper lemmas: dict lookup and the key order -/

theorem dget_cons {α : Type} (k' k : String) (v : α) (d : Dict α) :
    dget ((k', v) :: d) k = if k' = k then some v else dget d k := rfl

theorem chars_lt_irrefl (l : List Char) : chars_lt l l = false := by
  induction l with
  | nil => rfl
  | cons a as ih => simp [chars_lt, ih]

theorem chars_lt_connex (a b : List Char) (h1 : chars_lt a b = false)
    (h2 : chars_lt b a = false) : a = b := by
  induction a generalizing b with
  | nil =>
    cases b with
    | nil => rfl
    | cons x xs => simp [chars_lt] at h1
  | cons x xs ih =>
    cases b with
    | nil => simp [chars_lt] at h2
    | cons y ys =>
      simp only [chars_lt] at h1 h2
      rcases lt_trichotomy x y with hlt | heq | hgt
      · simp [hlt] at h1
      · subst heq
        simp [lt_irrefl] at h1 h2
        exact congrArg (x :: ·) (ih ys h1 h2)
      · simp [hgt, lt_asymm hgt] at h2

theorem chars_lt_trans (a b c : List Char) (h1 : chars_lt a b = true)
    (h2 : chars_lt b c = true) : chars_lt a c = true := by
  induction a generalizing b c with
  | nil =>
    cases c with
    | nil =>
      cases b with
      | nil => simp [chars_lt] at h1
      | cons y ys => simp [chars_lt] at h2
    | cons z zs => simp [chars_lt]
  | cons x xs ih =>
    cases b with
    | nil => simp [chars_lt] at h1
    | cons y ys =>
      cases c with
      | nil => simp [chars_lt] at h2
      | cons z zs =>
        simp only [chars_lt] at h1 h2 ⊢
        rcases lt_trichotomy x y with hxy | hxy | hxy
        · rcases lt_trichotomy y z with hyz | hyz | hyz
          · simp [lt_trans hxy hyz]
          · subst hyz; simp [hxy]
          · simp [hyz, lt_asymm hyz] at h2
        · subst hxy
          rcases lt_trichotomy x z with hxz | hxz | hxz
          · simp [hxz]
          · subst hxz
            simp [lt_irrefl] at h1 h2 ⊢
            exact ih ys zs h1 h2
          · simp [hxz, lt_asymm hxz] at h2
        · simp [hxy, lt_asymm hxy] at h1

theorem str_lt_connex (a b : String) (h1 : str_lt a b = false)
    (h2 : str_lt b a = false) : a = b := by
  cases a with
  | mk da =>
    cases b with
    | mk db => exact congrArg String.mk (chars_lt_connex da db h1 h2)

theorem str_lt_trans (a b c : String) (h1 : str_lt a b = true)
    (h2 : str_lt b c = true) : str_lt a c = true :=
  chars_lt_trans a.data b.data c.data h1 h2

theorem mem_insert_key (k a : String) (l : List String) :
    a ∈ insert_key k l ↔ a = k ∨ a ∈ l := by
  induction l with
  | nil => simp [insert_key]
  | cons k' rest ih =>
    simp only [insert_key]
    split
    · rename_i heq
      subst heq
      simp only [List.mem_cons]
      tauto
    · split
      · simp [List.mem_cons]
      · simp only [List.mem_cons, ih]
        tauto

theorem insert_key_pairwise (k : String) (l : List String)
    (h : l.Pairwise (fun a b => str_lt a b = true)) :
    (insert_key k l).Pairwise (fun a b => str_lt a b = true) := by
  induction l with
  | nil => simp [insert_key]
  | cons k' rest ih =>
    rcases List.pairwise_cons.mp h with ⟨hk', hrest⟩
    simp only [insert_key]
    split
    · exact h
    · rename_i hne
      split
      · rename_i hlt
        exact List.pairwise_cons.mpr ⟨fun b hb => by
          rcases List.mem_cons.mp hb with rfl | hb
          · exact hlt
          · exact str_lt_trans _ _ _ hlt (hk' b hb), h⟩
      · rename_i hnlt
        have hk'k : str_lt k' k = true := by
          cases ht : str_lt k' k with
          | true => rfl
          | false => exact absurd (str_lt_connex k k' (Bool.eq_false_iff.mpr hnlt) ht) hne
        refine List.pairwise_cons.mpr ⟨fun b hb => ?_, ih hrest⟩
        rcases (mem_insert_key k b rest).mp hb with rfl | hb
        · exact hk'k
        · exact hk' b hb

theorem group_keys_go_mem (rows : List Row) (init : List String) (k : String) :
    (k ∈ rows.foldl (fun ks row => insert_key row.journalEntryId ks) init) ↔
      (k ∈ init ∨ ∃ r ∈ rows, r.journalEntryId = k) := by
  induction rows generalizing init with
  | nil => simp
  | cons r rest ih =>
    simp only [List.foldl_cons, ih, mem_insert_key, List.mem_cons]
    constructor
    · rintro (h | h)
      · rcases h with h | h
        · exact Or.inr ⟨r, Or.inl rfl, h.symm⟩
        · exact Or.inl h
      · rcases h with ⟨r', hr', hid⟩
        exact Or.inr ⟨r', Or.inr hr', hid⟩
    · rintro (h | ⟨r', hr', hid⟩)
      · exact Or.inl (Or.inr h)
      · rcases hr' with rfl | hr'
        · exact Or.inl (Or.inl hid.symm)
        · exact Or.inr ⟨r', hr', hid⟩

theorem group_keys_mem (rows : List Row) (k : String) :
    (k ∈ group_keys rows) ↔ ∃ r ∈ rows, r.journalEntryId = k := by
  have h := group_keys_go_mem rows [] k
  simpa [group_keys] using h

theorem group_keys_pairwise (rows : List Row) :
    (group_keys rows).Pairwise (fun a b => str_lt a b = true) := by
  have go : ∀ (rs : List Row) (init : List String),
      init.Pairwise (fun a b => str_lt a b = true) →
      (rs.foldl (fun ks row => insert_key row.journalEntryId ks) init).Pairwise
        (fun a b => str_lt a b = true) := by
    intro rs
    induction rs with
    | nil => exact fun init h => h
    | cons r rest ih =>
      intro init h
      exact ih _ (insert_key_pairwise _ _ h)
  exact go rows [] List.Pairwise.nil

/-! ## Helper lemmas: the accounts index (C7) -/

theorem account_keys_disjoint_spec (a b : Account) (ca cb : String)
    (ha : a.Code = some ca) (hb : b.Code = some cb)
    (h : account_keys_disjoint a b = true) :
    cb ≠ ca ∧ cb ≠ a.Name ∧ b.Name ≠ ca ∧ b.Name ≠ a.Name := by
  unfold account_keys_disjoint at h
  rw [ha, hb] at h
  simpa [Bool.and_eq_true, and_assoc] using h

theorem process_accounts_skip (l : List Account) (d : Dict AccRef) (k : String)
    (h : ∀ a ∈ l, ∀ c, a.Code = some c → c ≠ k ∧ a.Name ≠ k) :
    dget (l.foldl process_accounts_step d) k = dget d k := by
  induction l generalizing d with
  | nil => rfl
  | cons a t ih =>
    simp only [List.foldl_cons]
    rw [ih _ (fun b hb => h b (List.mem_cons_of_mem a hb))]
    unfold process_accounts_step
    cases hc : a.Code with
    | none => rfl
    | some c =>
      rcases h a (List.mem_cons_self a t) c hc with ⟨hck, hnk⟩
      rw [dget_cons, if_neg hnk, dget_cons, if_neg hck]

theorem process_accounts_sources (l : List Account) (d : Dict AccRef)
    (k : String) (r : AccRef)
    (h : dget (l.foldl process_accounts_step d) k = some r) :
    dget d k = some r ∨ (⟨r.Name, some r.Code⟩ : Account) ∈ l := by
  induction l generalizing d with
  | nil => exact Or.inl h
  | cons a t ih =>
    simp only [List.foldl_cons] at h
    rcases ih _ h with hd | hmem
    · unfold process_accounts_step at hd
      cases hc : a.Code with
      | none => rw [hc] at hd; exact Or.inl hd
      | some c =>
        rw [hc] at hd
        have hacct : ∀ hr : r = ⟨a.Name, c⟩, (⟨r.Name, some r.Code⟩ : Account) = a := by
          intro hr
          subst hr
          cases a with
          | mk n co => simp at hc ⊢; exact hc.symm
        rw [dget_cons] at hd
        by_cases h1 : a.Name = k
        · rw [if_pos h1] at hd
          injection hd with hd
          exact Or.inr (hacct hd.symm ▸ List.mem_cons_self a t)
        · rw [if_neg h1, dget_cons] at hd
          by_cases h2 : c = k
          · rw [if_pos h2] at hd
            injection hd with hd
            exact Or.inr (hacct hd.symm ▸ List.mem_cons_self a t)
          · rw [if_neg h2] at hd
            exact Or.inl hd
    · exact Or.inr (List.mem_cons_of_mem a hmem)

theorem process_accounts_hit (l : List Account) (d : Dict AccRef) (a : Account)
    (c : String)
    (hdisj : l.Pairwise (fun x y => account_keys_disjoint x y = true))
    (hmem : a ∈ l) (hc : a.Code = some c) :
    dget (l.foldl process_accounts_step d) c = some ⟨a.Name, c⟩ ∧
    dget (l.foldl process_accounts_step d) a.Name = some ⟨a.Name, c⟩ := by
  induction l generalizing d with
  | nil => cases hmem
  | cons x t ih =>
    rcases List.pairwise_cons.mp hdisj with ⟨hx, ht⟩
    rcases List.mem_cons.mp hmem with rfl | hmem'
    · simp only [List.foldl_cons]
      have hskip : ∀ key, key = c ∨ key = a.Name →
          dget (t.foldl process_accounts_step (process_accounts_step d a)) key =
            dget (process_accounts_step d a) key := by
        intro key hkey
        apply process_accounts_skip
        intro b hb cb hcb
        rcases account_keys_disjoint_spec a b c cb hc hcb (hx b hb) with
          ⟨hbc, hbn, hnc, hnn⟩
        rcases hkey with rfl | rfl
        · exact ⟨hbc, hnc⟩
        · exact ⟨hbn, hnn⟩
      constructor
      · rw [hskip c (Or.inl rfl)]
        unfold process_accounts_step
        rw [hc, dget_cons]
        by_cases hn : a.Name = c
        · rw [if_pos hn]
        · rw [if_neg hn, dget_cons, if_pos rfl]
      · rw [hskip a.Name (Or.inr rfl)]
        unfold process_accounts_step
        rw [hc, dget_cons, if_pos rfl]
    · simp only [List.foldl_cons]
      exact ih _ ht hmem'

/-! ## Claim C7 -/

/-- C7 counterexample: in fxCollidingAccounts the second account's code is the
first account's name, so the final map sends the key Cash to the second
account's value, and the first (coded) account is not indexed under its own
Name — refuting that every account with a non-null Code is indexed under both
its Code and its Name. -/
theorem claim_C7_counterexample :
    (⟨"Cash", some "100"⟩ : Account) ∈ fxCollidingAccounts ∧
    (⟨"Cash", some "100"⟩ : Account).Code = some "100" ∧
    dget (process_accounts fxCollidingAccounts) "Cash" = some ⟨"X", "Cash"⟩ ∧
    some (⟨"X", "Cash"⟩ : AccRef) ≠ some (⟨"Cash", "100"⟩ : AccRef) :=
  ⟨by simp [fxCollidingAccounts], rfl, rfl, by decide⟩

/-- C7 (amended): every value of the accounts map arises from an input account
carrying that exact non-null code — in particular an account whose Code is
null never appears as a value under any key; and provided the accounts
contribute pairwise disjoint index keys, every account with a non-null Code is
indexed under both its Code and its Name, both keys mapping to the same
Name/Code value. -/
theorem claim_C7_account_index (acc_list : List Account) :
    (∀ k r, dget (process_accounts acc_list) k = some r →
      (⟨r.Name, some r.Code⟩ : Account) ∈ acc_list) ∧
    (acc_list.Pairwise (fun x y => account_keys_disjoint x y = true) →
      ∀ a ∈ acc_list, ∀ c, a.Code = some c →
        dget (process_accounts acc_list) c = some ⟨a.Name, c⟩ ∧
        dget (process_accounts acc_list) a.Name = some ⟨a.Name, c⟩) := by
  constructor
  · intro k r h
    rcases process_accounts_sources acc_list [] k r h with hd | hmem
    · exact Option.noConfusion hd
    · exact hmem
  · intro hdisj a hmem c hc
    exact process_accounts_hit acc_list [] a c hdisj hmem hc

/-- C7 witness: on a two-account list with disjoint keys, the first account is
reachable under both its code and its name. -/
theorem claim_C7_witness :
    dget (process_accounts [⟨"Cash", some "100"⟩, ⟨"Rev", some "200"⟩]) "100" =
      some ⟨"Cash", "100"⟩ ∧
    dget (process_accounts [⟨"Cash", some "100"⟩, ⟨"Rev", some "200"⟩]) "Cash" =
      some ⟨"Cash", "100"⟩ :=
  ⟨((claim_C7_account_index [⟨"Cash", some "100"⟩, ⟨"Rev", some "200"⟩]).2
      (by decide) ⟨"Cash", some "100"⟩ (by decide) "100" rfl).1,
   ((claim_C7_account_index [⟨"Cash", some "100"⟩, ⟨"Rev", some "200"⟩]).2
      (by decide) ⟨"Cash", some "100"⟩ (by decide) "100" rfl).2⟩

/-! ## Helper lemmas: line items -/

theorem add_tracking_LineAmount (li : LineItem) (t : TrackingRef) :
    (add_tracking li t).LineAmount = li.LineAmount := rfl

theorem add_tracking_AccountCode (li : LineItem) (t : TrackingRef) :
    (add_tracking li t).AccountCode = li.AccountCode := rfl

theorem add_tracking_Description (li : LineItem) (t : TrackingRef) :
    (add_tracking li t).Description = li.Description := rfl

theorem add_class_tracking_LineAmount (categories : Dict TrackingRef)
    (row : Row) (li : LineItem) :
    (add_class_tracking categories row li).LineAmount = li.LineAmount := by
  unfold add_class_tracking
  cases dget categories row.Class <;> rfl

theorem add_class_tracking_AccountCode (categories : Dict TrackingRef)
    (row : Row) (li : LineItem) :
    (add_class_tracking categories row li).AccountCode = li.AccountCode := by
  unfold add_class_tracking
  cases dget categories row.Class <;> rfl

theorem add_class_tracking_Description (categories : Dict TrackingRef)
    (row : Row) (li : LineItem) :
    (add_class_tracking categories row li).Description = li.Description := by
  unfold add_class_tracking
  cases dget categories row.Class <;> rfl

theorem add_dimension_LineAmount (c : Option String) (row : Row)
    (categories : Dict TrackingRef) (li : LineItem) :
    (add_dimension c row categories li).LineAmount = li.LineAmount := by
  unfold add_dimension
  split
  · rfl
  · split
    · rfl
    · split
      · rfl
      · rfl

theorem add_dimension_AccountCode (c : Option String) (row : Row)
    (categories : Dict TrackingRef) (li : LineItem) :
    (add_dimension c row categories li).AccountCode = li.AccountCode := by
  unfold add_dimension
  split
  · rfl
  · split
    · rfl
    · split
      · rfl
      · rfl

theorem add_dimension_Description (c : Option String) (row : Row)
    (categories : Dict TrackingRef) (li : LineItem) :
    (add_dimension c row categories li).Description = li.Description := by
  unfold add_dimension
  split
  · rfl
  · split
    · rfl
    · split
      · rfl
      · rfl

/-- Unfolding equation of build_line_item in terms of its blocks. -/
theorem build_line_item_eq (config : Config) (accounts : Dict AccRef)
    (categories : Dict TrackingRef) (je_id : String) (row : Row) :
    build_line_item config accounts categories je_id row =
      if row.accountNumber = "" ∧ row.accountName = "" then
        Except.error (JournalError.missingAccountRef je_id)
      else
        match resolve_acct_code accounts row.accountNumber row.accountName with
        | none => Except.error
            (JournalError.accountResolution je_id row.accountName row.accountNumber)
        | some code =>
            Except.ok (add_dimension config.customer_name row categories
              (add_dimension config.customer_id row categories
                (add_dimension config.location row categories
                  (add_dimension config.department row categories
                    (add_class_tracking categories row
                      { Description := row.description,
                        LineAmount := if pyLower row.postingType = "credit"
                          then -1 * |row.amount| else |row.amount|,
                        AccountCode := some code }))))) := rfl

theorem build_line_item_ok_amount (config : Config) (accounts : Dict AccRef)
    (categories : Dict TrackingRef) (je_id : String) (row : Row) (li : LineItem)
    (h : build_line_item config accounts categories je_id row = Except.ok li) :
    li.LineAmount =
      if pyLower row.postingType = "credit" then -1 * |row.amount| else |row.amount| := by
  rw [build_line_item_eq] at h
  by_cases hmiss : row.accountNumber = "" ∧ row.accountName = ""
  · rw [if_pos hmiss] at h
    exact Except.noConfusion h
  · rw [if_neg hmiss] at h
    cases hres : resolve_acct_code accounts row.accountNumber row.accountName with
    | none =>
      rw [hres] at h
      exact Except.noConfusion h
    | some code =>
      rw [hres] at h
      injection h with h
      subst h
      simp [add_dimension_LineAmount, add_class_tracking_LineAmount]

theorem build_line_item_ok_code (config : Config) (accounts : Dict AccRef)
    (categories : Dict TrackingRef) (je_id : String) (row : Row) (li : LineItem)
    (h : build_line_item config accounts categories je_id row = Except.ok li) :
    ∃ code, resolve_acct_code accounts row.accountNumber row.accountName = some code ∧
      li.AccountCode = some code := by
  rw [build_line_item_eq] at h
  by_cases hmiss : row.accountNumber = "" ∧ row.accountName = ""
  · rw [if_pos hmiss] at h
    exact Except.noConfusion h
  · rw [if_neg hmiss] at h
    cases hres : resolve_acct_code accounts row.accountNumber row.accountName with
    | none =>
      rw [hres] at h
      exact Except.noConfusion h
    | some code =>
      rw [hres] at h
      injection h with h
      subst h
      exact ⟨code, rfl, by
        simp [add_dimension_AccountCode, add_class_tracking_AccountCode]⟩

theorem build_line_item_ok_description (config : Config) (accounts : Dict AccRef)
    (categories : Dict TrackingRef) (je_id : String) (row : Row) (li : LineItem)
    (h : build_line_item config accounts categories je_id row = Except.ok li) :
    li.Description = row.description := by
  rw [build_line_item_eq] at h
  by_cases hmiss : row.accountNumber = "" ∧ row.accountName = ""
  · rw [if_pos hmiss] at h
    exact Except.noConfusion h
  · rw [if_neg hmiss] at h
    cases hres : resolve_acct_code accounts row.accountNumber row.accountName with
    | none =>
      rw [hres] at h
      exact Except.noConfusion h
    | some code =>
      rw [hres] at h
      injection h with h
      subst h
      simp [add_dimension_Description, add_class_tracking_Description]

theorem build_items_forall₂ (config : Config) (accounts : Dict AccRef)
    (categories : Dict TrackingRef) (je_id : String) (rows : List Row)
    (lis : List LineItem)
    (h : build_items config accounts categories je_id rows = Except.ok lis) :
    List.Forall₂
      (fun row li => build_line_item config accounts categories je_id row = Except.ok li)
      rows lis := by
  induction rows generalizing lis with
  | nil =>
    injection h with h
    subst h
    exact List.Forall₂.nil
  | cons row rest ih =>
    unfold build_items at h
    cases hb : build_line_item config accounts categories je_id row with
    | error e =>
      rw [hb] at h
      exact Except.noConfusion h
    | ok li =>
      rw [hb] at h
      cases hr : build_items config accounts categories je_id rest with
      | error e =>
        rw [hr] at h
        exact Except.noConfusion h
      | ok lis' =>
        rw [hr] at h
        injection h with h
        subst h
        exact List.Forall₂.cons hb (ih _ hr)

theorem build_items_error_of_mem (config : Config) (accounts : Dict AccRef)
    (categories : Dict TrackingRef) (je_id : String) (rows : List Row)
    (r : Row) (e : JournalError) (hmem : r ∈ rows)
    (herr : build_line_item config accounts categories je_id r = Except.error e) :
    ∃ e', build_items config accounts categories je_id rows = Except.error e' := by
  induction rows with
  | nil => cases hmem
  | cons row rest ih =>
    rcases List.mem_cons.mp hmem with rfl | hmem'
    · unfold build_items
      rw [herr]
      exact ⟨e, rfl⟩
    · unfold build_items
      cases hb : build_line_item config accounts categories je_id row with
      | error e0 => exact ⟨e0, rfl⟩
      | ok li =>
        rcases ih hmem' with ⟨e', he'⟩
        rw [he']
        exact ⟨e', rfl⟩

/-! ## Claim C3 -/

/-- C3: for every row whose posting type lowercases to credit, a successfully
built line item carries the negated absolute amount; for debit it carries the
absolute amount. -/
theorem claim_C3_signed_amount (config : Config) (accounts : Dict AccRef)
    (categories : Dict TrackingRef) (je_id : String) (row : Row) (li : LineItem)
    (h : build_line_item config accounts categories je_id row = Except.ok li) :
    (pyLower row.postingType = "credit" → li.LineAmount = -|row.amount|) ∧
    (pyLower row.postingType = "debit" → li.LineAmount = |row.amount|) := by
  have hamt := build_line_item_ok_amount config accounts categories je_id row li h
  constructor
  · intro hcr
    rw [hamt, if_pos hcr, neg_one_mul]
  · intro hdb
    have hne : pyLower row.postingType ≠ "credit" := by
      rw [hdb]
      decide
    rw [hamt, if_neg hne]

/-- C3 witness: the fixture credit row of amount 50 builds with line amount
-50. -/
theorem claim_C3_witness :
    build_line_item {} fxAccounts fxCategories "JE1" fxRowCredit =
      Except.ok { Description := "y", LineAmount := -50, AccountCode := some "200",
                  Tracking := [⟨"Dept", "Sales"⟩] } ∧
    pyLower fxRowCredit.postingType = "credit" ∧
    (-50 : Int) = -|fxRowCredit.amount| :=
  ⟨rfl, by decide,
   (claim_C3_signed_amount {} fxAccounts fxCategories "JE1" fxRowCredit
      { Description := "y", LineAmount := -50, AccountCode := some "200",
        Tracking := [⟨"Dept", "Sales"⟩] } rfl).1 (by decide)⟩

/-! ## Claim C5 -/

/-- C5: the missing-reference check precedes resolution; resolution consults
the number key first and falls back to the name key only when the number key
misses; a double miss fails with the accountResolution error carrying the
entry id, account name and account number; a resolved row builds a line item
carrying the resolved code; and a failing row aborts the entry's whole line
list. -/
theorem claim_C5_account_resolution (config : Config) (accounts : Dict AccRef)
    (categories : Dict TrackingRef) (je_id : String) (row : Row) :
    (row.accountNumber = "" ∧ row.accountName = "" →
      build_line_item config accounts categories je_id row =
        Except.error (JournalError.missingAccountRef je_id)) ∧
    (∀ r, dget accounts row.accountNumber = some r →
      resolve_acct_code accounts row.accountNumber row.accountName = some r.Code) ∧
    (dget accounts row.accountNumber = none →
      resolve_acct_code accounts row.accountNumber row.accountName =
        (dget accounts row.accountName).map AccRef.Code) ∧
    (¬(row.accountNumber = "" ∧ row.accountName = "") →
      resolve_acct_code accounts row.accountNumber row.accountName = none →
      build_line_item config accounts categories je_id row =
        Except.error
          (JournalError.accountResolution je_id row.accountName row.accountNumber)) ∧
    (¬(row.accountNumber = "" ∧ row.accountName = "") →
      ∀ code, resolve_acct_code accounts row.accountNumber row.accountName = some code →
      ∃ li, build_line_item config accounts categories je_id row = Except.ok li ∧
        li.AccountCode = some code) ∧
    (∀ e rows, row ∈ rows →
      build_line_item config accounts categories je_id row = Except.error e →
      ∃ e', build_items config accounts categories je_id rows = Except.error e') := by
  refine ⟨?_, ?_, ?_, ?_, ?_, ?_⟩
  · intro hmiss
    rw [build_line_item_eq, if_pos hmiss]
  · intro r hr
    unfold resolve_acct_code
    rw [hr]
  · intro hnone
    unfold resolve_acct_code
    rw [hnone]
    cases dget accounts row.accountName <;> rfl
  · intro hmiss hres
    rw [build_line_item_eq, if_neg hmiss, hres]
  · intro hmiss code hres
    rw [build_line_item_eq, if_neg hmiss, hres]
    refine ⟨_, rfl, ?_⟩
    simp [add_dimension_AccountCode, add_class_tracking_AccountCode]
  · intro e rows hmem herr
    exact build_items_error_of_mem config accounts categories je_id rows row e hmem herr

/-- C5 witness: a row with blank account number and name fails with the
missing-reference error. -/
theorem claim_C5_witness :
    build_line_item {} fxAccounts fxCategories "JE1" fxRowBlank =
      Except.error (JournalError.missingAccountRef "JE1") :=
  (claim_C5_account_resolution {} fxAccounts fxCategories "JE1" fxRowBlank).1
    ⟨rfl, rfl⟩

/-! ## Helper lemmas: build_lines, build_groups, load_journal_entries -/

theorem build_line_item_error_shape (config : Config) (accounts : Dict AccRef)
    (categories : Dict TrackingRef) (je_id : String) (row : Row)
    (e : JournalError)
    (h : build_line_item config accounts categories je_id row = Except.error e) :
    e = JournalError.missingAccountRef je_id ∨
    e = JournalError.accountResolution je_id row.accountName row.accountNumber := by
  rw [build_line_item_eq] at h
  by_cases hmiss : row.accountNumber = "" ∧ row.accountName = ""
  · rw [if_pos hmiss] at h
    injection h with h
    exact Or.inl h.symm
  · rw [if_neg hmiss] at h
    cases hres : resolve_acct_code accounts row.accountNumber row.accountName with
    | none =>
      rw [hres] at h
      injection h with h
      exact Or.inr h.symm
    | some code =>
      rw [hres] at h
      exact Except.noConfusion h

theorem build_items_error_shape (config : Config) (accounts : Dict AccRef)
    (categories : Dict TrackingRef) (je_id : String) (rows : List Row)
    (e : JournalError)
    (h : build_items config accounts categories je_id rows = Except.error e) :
    ∃ row ∈ rows, build_line_item config accounts categories je_id row =
      Except.error e := by
  induction rows with
  | nil => exact Except.noConfusion h
  | cons row rest ih =>
    unfold build_items at h
    cases hb : build_line_item config accounts categories je_id row with
    | error e0 =>
      rw [hb] at h
      injection h with h
      subst h
      exact ⟨row, List.mem_cons_self row rest, hb⟩
    | ok li =>
      rw [hb] at h
      cases hr : build_items config accounts categories je_id rest with
      | error e1 =>
        rw [hr] at h
        injection h with h
        subst h
        rcases ih hr with ⟨r, hrmem, hre⟩
        exact ⟨r, List.mem_cons_of_mem row hrmem, hre⟩
      | ok lis =>
        rw [hr] at h
        exact Except.noConfusion h

theorem build_lines_ok_inv (config : Config) (accounts : Dict AccRef)
    (categories : Dict TrackingRef) (rows : List Row) (entry : Entry)
    (h : build_lines config accounts categories rows = Except.ok entry) :
    build_items config accounts categories (head_je_id rows) rows =
      Except.ok entry.JournalLines ∧
    entry.Date = last_date rows ∧
    entry.Narration = head_je_id rows ∧
    entry.Status = "POSTED" := by
  unfold build_lines at h
  cases hb : build_items config accounts categories (head_je_id rows) rows with
  | error e =>
    rw [hb] at h
    exact Except.noConfusion h
  | ok lis =>
    rw [hb] at h
    injection h with h
    subst h
    exact ⟨rfl, rfl, rfl, rfl⟩

theorem build_lines_error_inv (config : Config) (accounts : Dict AccRef)
    (categories : Dict TrackingRef) (rows : List Row) (e : JournalError)
    (h : build_lines config accounts categories rows = Except.error e) :
    build_items config accounts categories (head_je_id rows) rows =
      Except.error e := by
  unfold build_lines at h
  cases hb : build_items config accounts categories (head_je_id rows) rows with
  | error e0 =>
    rw [hb] at h
    injection h with h
    subst h
    rfl
  | ok lis =>
    rw [hb] at h
    exact Except.noConfusion h

theorem build_groups_forall₂ (config : Config) (accounts : Dict AccRef)
    (categories : Dict TrackingRef) (rows : List Row) (ks : List String)
    (entries : List Entry)
    (h : build_groups config accounts categories rows ks = Except.ok entries) :
    List.Forall₂
      (fun k e => build_lines config accounts categories
        (rows.filter (fun r => r.journalEntryId = k)) = Except.ok e)
      ks entries := by
  induction ks generalizing entries with
  | nil =>
    injection h with h
    subst h
    exact List.Forall₂.nil
  | cons k rest ih =>
    unfold build_groups at h
    cases hb : build_lines config accounts categories
        (rows.filter (fun r => r.journalEntryId = k)) with
    | error e =>
      rw [hb] at h
      exact Except.noConfusion h
    | ok entry =>
      rw [hb] at h
      cases hr : build_groups config accounts categories rows rest with
      | error e =>
        rw [hr] at h
        exact Except.noConfusion h
      | ok es =>
        rw [hr] at h
        injection h with h
        subst h
        exact List.Forall₂.cons hb (ih _ hr)

theorem build_groups_error_inv (config : Config) (accounts : Dict AccRef)
    (categories : Dict TrackingRef) (rows : List Row) (ks : List String)
    (e : JournalError)
    (h : build_groups config accounts categories rows ks = Except.error e) :
    ∃ k ∈ ks, build_lines config accounts categories
      (rows.filter (fun r => r.journalEntryId = k)) = Except.error e := by
  induction ks with
  | nil => exact Except.noConfusion h
  | cons k rest ih =>
    unfold build_groups at h
    cases hb : build_lines config accounts categories
        (rows.filter (fun r => r.journalEntryId = k)) with
    | error e0 =>
      rw [hb] at h
      injection h with h
      subst h
      exact ⟨k, List.mem_cons_self k rest, hb⟩
    | ok entry =>
      rw [hb] at h
      cases hr : build_groups config accounts categories rows rest with
      | error e1 =>
        rw [hr] at h
        injection h with h
        subst h
        rcases ih hr with ⟨k', hk', he'⟩
        exact ⟨k', List.mem_cons_of_mem k hk', he'⟩
      | ok es =>
        rw [hr] at h
        exact Except.noConfusion h

theorem load_ok_inv (config : Config) (accounts : Dict AccRef)
    (categories : Dict TrackingRef) (cols : List String) (rows : List Row)
    (entries : List Entry)
    (h : load_journal_entries config accounts categories cols rows =
      Except.ok entries) :
    REQUIRED_COLS.all (fun col => cols.contains col) = true ∧
    build_groups config accounts categories rows (group_keys rows) =
      Except.ok entries := by
  unfold load_journal_entries at h
  cases hall : REQUIRED_COLS.all (fun col => cols.contains col) with
  | false =>
    rw [hall] at h
    exact Except.noConfusion h
  | true =>
    rw [hall] at h
    simp only [Bool.not_true] at h
    cases hb : build_groups config accounts categories rows (group_keys rows) with
    | error e =>
      rw [hb] at h
      simp at h
    | ok es =>
      rw [hb] at h
      simp at h
      subst h
      exact ⟨rfl, rfl⟩

theorem load_error_inv (config : Config) (accounts : Dict AccRef)
    (categories : Dict TrackingRef) (cols : List String) (rows : List Row)
    (e : JournalError)
    (h : load_journal_entries config accounts categories cols rows =
      Except.error e) :
    e = JournalError.schemaError 1 ∨
    ∃ k ∈ group_keys rows, build_lines config accounts categories
      (rows.filter (fun r => r.journalEntryId = k)) = Except.error e := by
  unfold load_journal_entries at h
  cases hall : REQUIRED_COLS.all (fun col => cols.contains col) with
  | false =>
    rw [hall] at h
    simp at h
    exact Or.inl h.symm
  | true =>
    rw [hall] at h
    simp only [Bool.not_true] at h
    cases hb : build_groups config accounts categories rows (group_keys rows) with
    | error e0 =>
      rw [hb] at h
      simp at h
      subst h
      exact Or.inr (build_groups_error_inv _ _ _ _ _ _ hb)
    | ok es =>
      rw [hb] at h
      simp at h

theorem load_not_conversionError (config : Config) (accounts : Dict AccRef)
    (categories : Dict TrackingRef) (cols : List String) (rows : List Row) :
    load_journal_entries config accounts categories cols rows ≠
      Except.error JournalError.conversionError := by
  intro h
  rcases load_error_inv config accounts categories cols rows _ h with he | ⟨k, _, he⟩
  · exact JournalError.noConfusion he
  · have hi := build_lines_error_inv config accounts categories _ _ he
    rcases build_items_error_shape config accounts categories _ _ _ hi with
      ⟨row, _, hrow⟩
    rcases build_line_item_error_shape config accounts categories _ row _ hrow with
      hshape | hshape <;> exact JournalError.noConfusion hshape

theorem forall₂_mem_right {α β : Type} {R : α → β → Prop} :
    ∀ {as : List α} {bs : List β}, List.Forall₂ R as bs →
      ∀ {b}, b ∈ bs → ∃ a ∈ as, R a b := by
  intro as bs h
  induction h with
  | nil => intro b hb; cases hb
  | cons h1 h2 ih =>
    intro b hb
    rcases List.mem_cons.mp hb with rfl | hb
    · exact ⟨_, List.mem_cons_self _ _, h1⟩
    · rcases ih hb with ⟨a, ha, hr⟩
      exact ⟨a, List.mem_cons_of_mem _ ha, hr⟩

theorem head_je_id_filter (rows : List Row) (k : String)
    (hne : ∃ r ∈ rows, r.journalEntryId = k) :
    head_je_id (rows.filter (fun r => r.journalEntryId = k)) = k := by
  rcases hne with ⟨r, hr, hid⟩
  have hmem : r ∈ rows.filter (fun r => r.journalEntryId = k) :=
    List.mem_filter.mpr ⟨hr, by simp [hid]⟩
  cases hf : rows.filter (fun r => r.journalEntryId = k) with
  | nil =>
    rw [hf] at hmem
    cases hmem
  | cons r0 rest =>
    have h0 : r0 ∈ rows.filter (fun r => r.journalEntryId = k) :=
      hf ▸ List.mem_cons_self r0 rest
    have hid0 := (List.mem_filter.mp h0).2
    unfold head_je_id
    simpa using hid0

theorem items_descriptions (config : Config) (accounts : Dict AccRef)
    (categories : Dict TrackingRef) (je_id : String) (rows : List Row)
    (lis : List LineItem)
    (hf : List.Forall₂
      (fun row li => build_line_item config accounts categories je_id row =
        Except.ok li) rows lis) :
    lis.map LineItem.Description = rows.map Row.description := by
  induction hf with
  | nil => rfl
  | cons h1 h2 ih =>
    simp only [List.map_cons, ih]
    rw [build_line_item_ok_description _ _ _ _ _ _ h1]

theorem map_narration_eq (config : Config) (accounts : Dict AccRef)
    (categories : Dict TrackingRef) (rows : List Row) :
    ∀ (ks : List String) (entries : List Entry),
      (∀ k ∈ ks, ∃ r ∈ rows, r.journalEntryId = k) →
      List.Forall₂
        (fun k e => build_lines config accounts categories
          (rows.filter (fun r => r.journalEntryId = k)) = Except.ok e)
        ks entries →
      entries.map Entry.Narration = ks := by
  intro ks
  induction ks with
  | nil =>
    intro entries _ hf
    cases hf
    rfl
  | cons k rest ih =>
    intro entries hmem hf
    cases hf with
    | cons hke hrest =>
      rename_i e es
      have h1 : e.Narration = k := by
        rw [(build_lines_ok_inv config accounts categories _ _ hke).2.2.1]
        exact head_je_id_filter rows k (hmem k (List.mem_cons_self k rest))
      simp only [List.map_cons, h1]
      rw [ih es (fun k' hk' => hmem k' (List.mem_cons_of_mem k hk')) hrest]

/-! ## Claim C10 -/

/-- C10: the Date of a built entry is the Transaction Date of the LAST row of
its group in processed order (the leftover loop variable), not the first
row's. -/
theorem claim_C10_entry_date (config : Config) (accounts : Dict AccRef)
    (categories : Dict TrackingRef) (rows : List Row) (entry : Entry)
    (hne : rows ≠ [])
    (h : build_lines config accounts categories rows = Except.ok entry) :
    entry.Date = (rows.getLast hne).transactionDate := by
  rw [(build_lines_ok_inv config accounts categories rows entry h).2.1]
  unfold last_date
  rw [List.getLast?_eq_getLast rows hne]

/-- C10 witness: a two-row group whose rows carry different normalized dates
builds an entry dated by the second (last) row. -/
theorem claim_C10_witness :
    build_lines {} fxAccounts fxCategories [fxRowDebit, fxRowLater] =
      Except.ok fxEntryLater ∧
    fxEntryLater.Date = ([fxRowDebit, fxRowLater].getLast (by simp)).transactionDate ∧
    fxRowDebit.transactionDate ≠ "2024-02-02" :=
  ⟨rfl,
   claim_C10_entry_date {} fxAccounts fxCategories [fxRowDebit, fxRowLater]
     fxEntryLater (by simp) rfl,
   by decide⟩

/-! ## Claim C2 -/

/-- C2 counterexample: on an input whose first (sorted) group contains an
unresolvable row while a later group is fine, the conversion fails with the
per-row accountResolution exception, not with the post-grouping
conversionError the claim asserts — the failure is raised immediately inside
the per-row loop, before later groups are processed. -/
theorem claim_C2_counterexample :
    load_journal_entries {} fxAccounts fxCategories REQUIRED_COLS
        [fxRowBad, fxRowB] =
      Except.error (JournalError.accountResolution "A" "Ghost" "999") ∧
    JournalError.accountResolution "A" "Ghost" "999" ≠
      JournalError.conversionError :=
  ⟨rfl, by decide⟩

/-- C2 (amended): the conversion either returns entries in which every line
item carries a non-null resolved account code, or raises — and the raise is
the immediate per-row exception: the post-grouping ConversionError branch is
never the outcome, and no entries are returned on failure. -/
theorem claim_C2_all_or_nothing (config : Config) (accounts : Dict AccRef)
    (categories : Dict TrackingRef) (cols : List String) (rows : List Row) :
    (∀ entries, load_journal_entries config accounts categories cols rows =
        Except.ok entries →
      ∀ e ∈ entries, ∀ li ∈ e.JournalLines, ∃ c, li.AccountCode = some c) ∧
    load_journal_entries config accounts categories cols rows ≠
      Except.error JournalError.conversionError := by
  constructor
  · intro entries h e he li hli
    have hb := (load_ok_inv config accounts categories cols rows entries h).2
    have hf := build_groups_forall₂ config accounts categories rows
      (group_keys rows) entries hb
    rcases forall₂_mem_right hf he with ⟨k, _, hbl⟩
    have hinv := (build_lines_ok_inv config accounts categories _ e hbl).1
    have hfi := build_items_forall₂ config accounts categories _ _ _ hinv
    rcases forall₂_mem_right hfi hli with ⟨row, _, hrow⟩
    rcases build_line_item_ok_code config accounts categories _ row li hrow with
      ⟨code, _, hcode⟩
    exact ⟨code, hcode⟩
  · exact load_not_conversionError config accounts categories cols rows

/-- C2 witness: concrete two-group input on which the amended claim's
conversionError impossibility is instantiated. -/
theorem claim_C2_witness :
    load_journal_entries {} fxAccounts fxCategories REQUIRED_COLS
        [fxRowB, fxRowA] ≠
      Except.error JournalError.conversionError :=
  (claim_C2_all_or_nothing {} fxAccounts fxCategories REQUIRED_COLS
    [fxRowB, fxRowA]).2

/-! ## Claim C9 -/

/-- C9: the errored = True assignment of line 108 binds a variable local to
the build_lines closure (no nonlocal declaration), so the enclosing flag read
at line 177 stays False and the raising branch if errored is unreachable: the
conversion never returns the conversionError outcome, and every failure is
either the schema exit or one of the two per-row exceptions. -/
theorem claim_C9_errored_flag_dead (config : Config) (accounts : Dict AccRef)
    (categories : Dict TrackingRef) (cols : List String) (rows : List Row) :
    load_journal_entries config accounts categories cols rows ≠
      Except.error JournalError.conversionError ∧
    (∀ e, load_journal_entries config accounts categories cols rows =
        Except.error e →
      e = JournalError.schemaError 1 ∨
      (∃ je_id, e = JournalError.missingAccountRef je_id) ∨
      (∃ je_id acct_name acct_num,
        e = JournalError.accountResolution je_id acct_name acct_num)) := by
  constructor
  · exact load_not_conversionError config accounts categories cols rows
  · intro e h
    rcases load_error_inv config accounts categories cols rows e h with
      he | ⟨k, _, he⟩
    · exact Or.inl he
    · have hi := build_lines_error_inv config accounts categories _ _ he
      rcases build_items_error_shape config accounts categories _ _ _ hi with
        ⟨row, _, hrow⟩
      rcases build_line_item_error_shape config accounts categories _ row _ hrow
        with hshape | hshape
      · exact Or.inr (Or.inl ⟨_, hshape⟩)
      · exact Or.inr (Or.inr ⟨_, _, _, hshape⟩)

/-- C9 witness: on the concrete failing input the outcome is the per-row
resolution exception, never the conversionError. -/
theorem claim_C9_witness :
    load_journal_entries {} fxAccounts fxCategories REQUIRED_COLS
        [fxRowBad, fxRowB] ≠
      Except.error JournalError.conversionError :=
  (claim_C9_errored_flag_dead {} fxAccounts fxCategories REQUIRED_COLS
    [fxRowBad, fxRowB]).1

/-! ## Claim C8 -/

/-- C8: when any required column is absent from the input table, the
conversion fails with the schema error carrying exit status 1 — a non-zero
status — before any row is converted: the outcome is the same schema error for
every row list, including rows that could not convert. -/
theorem claim_C8_schema_validation (config : Config) (accounts : Dict AccRef)
    (categories : Dict TrackingRef) (cols : List String) (rows : List Row)
    (col : String) (hreq : col ∈ REQUIRED_COLS) (hmiss : col ∉ cols) :
    load_journal_entries config accounts categories cols rows =
      Except.error (JournalError.schemaError 1) ∧ (1 : Nat) ≠ 0 := by
  constructor
  · have hall : REQUIRED_COLS.all (fun c => cols.contains c) = false := by
      rw [List.all_eq_false]
      exact ⟨col, hreq, by simpa using hmiss⟩
    unfold load_journal_entries
    rw [hall]
    rfl
  · decide

/-- C8 witness: a table exposing only the date column fails the schema check
with exit status 1 for a nonempty row list. -/
theorem claim_C8_witness :
    load_journal_entries {} fxAccounts fxCategories ["Transaction Date"]
        [fxRowDebit] =
      Except.error (JournalError.schemaError 1) :=
  (claim_C8_schema_validation {} fxAccounts fxCategories ["Transaction Date"]
    [fxRowDebit] "Description" (by decide) (by decide)).1

/-! ## Claim C4 -/

/-- C4 counterexample: for rows arriving with entry ids B then A, the built
entries come out in ascending id order A, B (pandas groupby sorts group keys),
not in the first-seen order B, A the claim asserts. -/
theorem claim_C4_counterexample :
    (load_journal_entries {} fxAccounts fxCategories REQUIRED_COLS
        [fxRowB, fxRowA]).map (fun es => es.map Entry.Narration) =
      Except.ok ["A", "B"] ∧
    first_seen_keys [fxRowB, fxRowA] = ["B", "A"] ∧
    (["A", "B"] : List String) ≠ ["B", "A"] :=
  ⟨rfl, rfl, by decide⟩

/-- C4 (amended): the built entries are ordered by ascending entry identifier
(the pandas groupby sort order): their narrations are exactly the sorted
distinct identifiers, pairwise strictly increasing, covering exactly the
identifiers present in the input; and within each entry the line items
preserve the input row order of that group (their descriptions are the
group's row descriptions in input order). -/
theorem claim_C4_group_order (config : Config) (accounts : Dict AccRef)
    (categories : Dict TrackingRef) (cols : List String) (rows : List Row)
    (entries : List Entry)
    (h : load_journal_entries config accounts categories cols rows =
      Except.ok entries) :
    entries.map Entry.Narration = group_keys rows ∧
    (entries.map Entry.Narration).Pairwise (fun a b => str_lt a b = true) ∧
    (∀ k, k ∈ entries.map Entry.Narration ↔ ∃ r ∈ rows, r.journalEntryId = k) ∧
    (∀ e ∈ entries, e.JournalLines.map LineItem.Description =
      (rows.filter (fun r => r.journalEntryId = e.Narration)).map
        Row.description) := by
  have hb := (load_ok_inv config accounts categories cols rows entries h).2
  have hf := build_groups_forall₂ config accounts categories rows
    (group_keys rows) entries hb
  have hnar : entries.map Entry.Narration = group_keys rows :=
    map_narration_eq config accounts categories rows (group_keys rows) entries
      (fun k hk => (group_keys_mem rows k).mp hk) hf
  refine ⟨hnar, ?_, ?_, ?_⟩
  · rw [hnar]
    exact group_keys_pairwise rows
  · intro k
    rw [hnar]
    exact group_keys_mem rows k
  · intro e he
    rcases forall₂_mem_right hf he with ⟨k, hk, hbl⟩
    have hinv := build_lines_ok_inv config accounts categories _ e hbl
    have hek : e.Narration = k := by
      rw [hinv.2.2.1]
      exact head_je_id_filter rows k ((group_keys_mem rows k).mp hk)
    have hfi := build_items_forall₂ config accounts categories _ _ _ hinv.1
    rw [hek]
    exact items_descriptions config accounts categories _ _ _ hfi

/-- C4 witness: the entries built from the rows with ids B then A have
narrations A, B, in strictly ascending order, and each entry's line
descriptions are its group's row descriptions. -/
theorem claim_C4_witness :
    ([fxEntryA, fxEntryB].map Entry.Narration).Pairwise
      (fun a b => str_lt a b = true) ∧
    [fxEntryA, fxEntryB].map Entry.Narration = group_keys [fxRowB, fxRowA] :=
  ⟨(claim_C4_group_order {} fxAccounts fxCategories REQUIRED_COLS
      [fxRowB, fxRowA] [fxEntryA, fxEntryB] rfl).2.1,
   (claim_C4_group_order {} fxAccounts fxCategories REQUIRED_COLS
      [fxRowB, fxRowA] [fxEntryA, fxEntryB] rfl).1⟩

/-! ## Helper lemmas: the batch poster -/

theorem void_posted_nil {α : Type} (oracle : Nat → PushResult) (c : Nat)
    (trace : List (XCall α)) :
    void_posted oracle c [] trace = (trace, c, none) := rfl

theorem void_posted_cons_ok {α : Type} (oracle : Nat → PushResult) (c : Nat)
    (id : String) (rest : List String) (trace : List (XCall α)) (r : PJResponse)
    (hr : oracle c = Except.ok r) :
    void_posted oracle c (id :: rest) trace =
      void_posted oracle (c + 1) rest (trace ++ [XCall.void id]) := by
  conv_lhs => rw [void_posted]
  rw [hr]

theorem void_posted_ok {α : Type} (oracle : Nat → PushResult) (ids : List String) :
    ∀ (c : Nat) (trace : List (XCall α)),
      (∀ i, i < ids.length → ∃ r, oracle (c + i) = Except.ok r) →
      void_posted oracle c ids trace =
        (trace ++ ids.map XCall.void, c + ids.length, none) := by
  induction ids with
  | nil =>
    intro c trace _
    simp [void_posted_nil]
  | cons id rest ih =>
    intro c trace h
    rcases h 0 (by simp) with ⟨r, hr⟩
    have hr0 : oracle c = Except.ok r := by simpa using hr
    rw [void_posted_cons_ok oracle c id rest trace r hr0]
    rw [ih (c + 1) (trace ++ [XCall.void id]) (fun i hi => by
      have h2 := h (i + 1) (by simpa using Nat.succ_lt_succ hi)
      rwa [show c + (i + 1) = c + 1 + i by omega] at h2)]
    simp [List.append_assoc]
    omega

theorem post_loop_step_ok_some {α : Type} (oracle : Nat → PushResult) (j : α)
    (rest : List α) (c : Nat) (posted : List String) (trace : List (XCall α))
    (b : Bool) (id : String)
    (hr : oracle c = Except.ok ⟨b, some id⟩) :
    post_loop oracle (j :: rest) c posted trace =
      post_loop oracle rest (c + 1) (posted ++ [id])
        (trace ++ [XCall.submit j]) := by
  conv_lhs => rw [post_loop]
  rw [hr]

theorem post_loop_step_fail {α : Type} (oracle : Nat → PushResult) (j : α)
    (rest : List α) (c : Nat) (posted : List String) (trace : List (XCall α))
    (hfail : (∃ e, oracle c = Except.error e) ∨
      (∃ b, oracle c = Except.ok ⟨b, none⟩))
    (trace2 : List (XCall α)) (c2 : Nat)
    (hv : void_posted oracle (c + 1) posted (trace ++ [XCall.submit j]) =
      (trace2, c2, none)) :
    post_loop oracle (j :: rest) c posted trace =
      (trace2, PostOutcome.postingError) := by
  rcases hfail with ⟨e, hr⟩ | ⟨b, hr⟩
  · conv_lhs => rw [post_loop]
    rw [hr, hv]
  · conv_lhs => rw [post_loop]
    rw [hr, hv]

theorem post_loop_spec {α : Type} (oracle : Nat → PushResult) :
    ∀ (pre : List α) (jfail : α) (post : List α) (c : Nat)
      (posted : List String) (trace : List (XCall α)) (ids : List String),
      ids.length = pre.length →
      (∀ i, i < pre.length → ∃ r, oracle (c + i) = Except.ok r ∧
        r.manualJournalID = ids.get? i) →
      ((∃ e, oracle (c + pre.length) = Except.error e) ∨
       (∃ r, oracle (c + pre.length) = Except.ok r ∧ r.manualJournalID = none)) →
      (∀ i, i < posted.length + ids.length →
        ∃ r, oracle (c + pre.length + 1 + i) = Except.ok r) →
      post_loop oracle (pre ++ jfail :: post) c posted trace =
        (trace ++ (pre ++ [jfail]).map XCall.submit ++
          ((posted ++ ids).map XCall.void),
         PostOutcome.postingError) := by
  intro pre
  induction pre with
  | nil =>
    intro jfail post c posted trace ids hlen hpre hfail hvoid
    have hids : ids = [] := List.length_eq_zero.mp hlen
    subst hids
    rw [List.nil_append]
    have hvoid' : ∀ i, i < posted.length →
        ∃ r, oracle (c + 1 + i) = Except.ok r := by
      intro i hi
      have h2 := hvoid i (by simpa using hi)
      have he : c + List.length ([] : List α) + 1 + i = c + 1 + i := by
        simp
      rwa [he] at h2
    have hv := void_posted_ok oracle posted (c + 1)
      (trace ++ [XCall.submit jfail]) hvoid'
    have hfail' : (∃ e, oracle c = Except.error e) ∨
        (∃ b, oracle c = Except.ok ⟨b, none⟩) := by
      rcases hfail with ⟨e, he⟩ | ⟨r, hr, hnone⟩
      · exact Or.inl ⟨e, by simpa using he⟩
      · obtain ⟨b, mid⟩ := r
        simp only at hnone
        subst hnone
        exact Or.inr ⟨b, by simpa using hr⟩
    rw [post_loop_step_fail oracle jfail post c posted trace hfail' _ _ hv]
    simp [List.append_assoc]
  | cons p pre' ih =>
    intro jfail post c posted trace ids hlen hpre hfail hvoid
    cases ids with
    | nil => simp at hlen
    | cons id ids' =>
      rw [List.cons_append]
      rcases hpre 0 (by simp) with ⟨r, hr, hid⟩
      obtain ⟨b, mid⟩ := r
      simp only at hid
      simp only [List.get?] at hid
      subst hid
      have hr0 : oracle c = Except.ok ⟨b, some id⟩ := by simpa using hr
      rw [post_loop_step_ok_some oracle p (pre' ++ jfail :: post) c posted trace
        b id hr0]
      have hlen' : ids'.length = pre'.length := by simpa using hlen
      have hpre' : ∀ i, i < pre'.length →
          ∃ r2, oracle (c + 1 + i) = Except.ok r2 ∧
            r2.manualJournalID = ids'.get? i := by
        intro i hi
        have h2 := hpre (i + 1) (by simpa using Nat.succ_lt_succ hi)
        rwa [show c + (i + 1) = c + 1 + i by omega] at h2
      have hfail' : (∃ e, oracle (c + 1 + pre'.length) = Except.error e) ∨
          (∃ r2, oracle (c + 1 + pre'.length) = Except.ok r2 ∧
            r2.manualJournalID = none) := by
        rwa [show c + (p :: pre').length = c + 1 + pre'.length by
          simp [List.length_cons]
          omega] at hfail
      have hvoid' : ∀ i, i < (posted ++ [id]).length + ids'.length →
          ∃ r2, oracle (c + 1 + pre'.length + 1 + i) = Except.ok r2 := by
        intro i hi
        have h2 := hvoid i (by simp at hi ⊢; omega)
        rwa [show c + (p :: pre').length + 1 + i = c + 1 + pre'.length + 1 + i by
          simp [List.length_cons]
          omega] at h2
      rw [ih jfail post (c + 1) (posted ++ [id]) (trace ++ [XCall.submit p])
        ids' hlen' hpre' hfail' hvoid']
      simp [List.append_assoc]

/-! ## Claim C1 -/

/-- C1 counterexample: a submission whose response is a validation fault
(Type ValidationException with Elements) but still carries the ManualJournals
identifier is treated as a success — lines 194-196 only log the fault — so the
run ends normally with the entry posted: no voiding happens and no terminal
error is raised, contradicting the claim that a validation fault triggers the
rollback. -/
theorem claim_C1_counterexample :
    post_journal_entries fxOracleValid ["j1"] =
      ([XCall.submit "j1"], PostOutcome.ok) ∧
    fxOracleValid 0 = Except.ok ⟨true, some "idX"⟩ ∧
    PostOutcome.ok ≠ PostOutcome.postingError :=
  ⟨rfl, rfl, by decide⟩

/-- C1 (amended): when the first k-1 submissions return responses carrying
identifiers, submission k fails in the code's sense (the push raises, or the
response lacks the ManualJournals identifier path — a validation fault only
fails through this), and the voiding pushes all succeed, then the call trace
is exactly the k submissions in order followed by voids of the k-1 posted
identifiers in posting order — entries k+1..n are never submitted — and the
run ends with the terminal posting error. -/
theorem claim_C1_rollback (α : Type) (oracle : Nat → PushResult) (pre : List α)
    (jfail : α) (post : List α) (ids : List String)
    (hlen : ids.length = pre.length)
    (hpre : ∀ i, i < pre.length → ∃ r, oracle i = Except.ok r ∧
      r.manualJournalID = ids.get? i)
    (hfail : (∃ e, oracle pre.length = Except.error e) ∨
      (∃ r, oracle pre.length = Except.ok r ∧ r.manualJournalID = none))
    (hvoid : ∀ i, i < ids.length → ∃ r, oracle (pre.length + 1 + i) = Except.ok r) :
    post_journal_entries oracle (pre ++ jfail :: post) =
      ((pre ++ [jfail]).map XCall.submit ++ ids.map XCall.void,
       PostOutcome.postingError) := by
  have h := post_loop_spec oracle pre jfail post 0 [] [] ids hlen
    (by simpa using hpre) (by simpa using hfail) (by simpa using hvoid)
  simpa [post_journal_entries] using h

/-- C1 witness: three journals, the second submission answers without the
identifier path: the trace is submit j1, submit j2, void id1, the third
journal is never submitted, and the posting error is raised. -/
theorem claim_C1_witness :
    post_journal_entries fxOracleFail ["j1", "j2", "j3"] =
      ([XCall.submit "j1", XCall.submit "j2", XCall.void "id1"],
       PostOutcome.postingError) :=
  claim_C1_rollback String fxOracleFail ["j1"] "j2" ["j3"] ["id1"] rfl
    (fun i hi => by
      have hi1 : i < 1 := by simpa using hi
      have h0 : i = 0 := by omega
      subst h0
      exact ⟨⟨false, some "id1"⟩, rfl, rfl⟩)
    (Or.inr ⟨⟨false, none⟩, rfl, rfl⟩)
    (fun i hi => by
      have hi1 : i < 1 := by simpa using hi
      have h0 : i = 0 := by omega
      subst h0
      exact ⟨⟨false, none⟩, rfl⟩)

/-! ## Helper lemmas: the transaction uploader -/

theorem upload_tx_nil {α : Type} (oracle : Nat → TxResponse) (c : Nat)
    (pushed : List String) (trace : List (TxCall α)) :
    upload_tx_loop oracle [] c pushed trace = ⟨trace, none, pushed⟩ := rfl

theorem upload_tx_step_fail {α : Type} (oracle : Nat → TxResponse) (t : α)
    (rest : List α) (c : Nat) (pushed : List String) (trace : List (TxCall α))
    (hgt : (oracle c).status_code > 300) :
    upload_tx_loop oracle (t :: rest) c pushed trace =
      ⟨trace ++ [TxCall.submit t] ++ pushed.map TxCall.delete,
       some (oracle c).body, pushed⟩ := by
  conv_lhs => rw [upload_tx_loop]
  rw [if_pos hgt]

theorem upload_tx_step_ok {α : Type} (oracle : Nat → TxResponse) (t : α)
    (rest : List α) (c : Nat) (pushed : List String) (trace : List (TxCall α))
    (hle : ¬(oracle c).status_code > 300) :
    upload_tx_loop oracle (t :: rest) c pushed trace =
      upload_tx_loop oracle rest (c + 1)
        (pushed ++ (oracle c).bankTransactionIDs) (trace ++ [TxCall.submit t]) := by
  conv_lhs => rw [upload_tx_loop]
  rw [if_neg hle]

theorem upload_tx_spec {α : Type} (oracle : Nat → TxResponse) :
    ∀ (pre : List α) (tfail : α) (rest : List α) (c : Nat)
      (pushed : List String) (trace : List (TxCall α)),
      (∀ i, i < pre.length → (oracle (c + i)).status_code ≤ 300) →
      (oracle (c + pre.length)).status_code > 300 →
      upload_tx_loop oracle (pre ++ tfail :: rest) c pushed trace =
        ⟨trace ++ pre.map TxCall.submit ++ [TxCall.submit tfail] ++
          ((pushed ++ collect_ids oracle c pre.length).map TxCall.delete),
         some (oracle (c + pre.length)).body,
         pushed ++ collect_ids oracle c pre.length⟩ := by
  intro pre
  induction pre with
  | nil =>
    intro tfail rest c pushed trace _ hfail
    have hgt : (oracle c).status_code > 300 := by simpa using hfail
    rw [List.nil_append, upload_tx_step_fail oracle tfail rest c pushed trace hgt]
    simp [collect_ids, List.append_assoc]
  | cons p pre' ih =>
    intro tfail rest c pushed trace hpre hfail
    have hle : ¬(oracle c).status_code > 300 := by
      have h0 := hpre 0 (by simp)
      simp at h0
      omega
    rw [List.cons_append, upload_tx_step_ok oracle p (pre' ++ tfail :: rest) c
      pushed trace hle]
    have hpre' : ∀ i, i < pre'.length →
        (oracle (c + 1 + i)).status_code ≤ 300 := by
      intro i hi
      have h2 := hpre (i + 1) (by simpa using Nat.succ_lt_succ hi)
      rwa [show c + (i + 1) = c + 1 + i by omega] at h2
    have hfail' : (oracle (c + 1 + pre'.length)).status_code > 300 := by
      rwa [show c + (p :: pre').length = c + 1 + pre'.length by
        simp [List.length_cons]
        omega] at hfail
    rw [ih tfail rest (c + 1) (pushed ++ (oracle c).bankTransactionIDs)
      (trace ++ [TxCall.submit p]) hpre' hfail']
    have hc : c + 1 + pre'.length = c + (p :: pre').length := by
      simp [List.length_cons]
      omega
    simp [collect_ids, List.append_assoc, hc]

/-! ## Claim C6 -/

/-- C6 counterexample: a response with status code exactly 300 — which the
claim counts as a failure (>= 300) — is NOT treated as one by the code
(res.status_code > 300 is strict): the body is not persisted, no deletions are
issued, the returned ids are appended and the loop continues to completion. -/
theorem claim_C6_counterexample :
    upload_transactions fxTxOracle300 ["t1"] =
      ⟨[TxCall.submit "t1"], none, ["x1"]⟩ ∧
    (fxTxOracle300 0).status_code = 300 ∧
    (fxTxOracle300 0).status_code ≥ 300 ∧
    (none : Option String) ≠ some (fxTxOracle300 0).body :=
  ⟨rfl, rfl, by decide, by decide⟩

/-- C6 (amended): the first response whose status code strictly exceeds 300
causes the response body to be persisted to the diagnostic file, deletion
calls for exactly the transaction identifiers returned by the earlier
responses (in posting order), and the loop to stop — no later transaction is
submitted and no exception outcome exists; responses with status code at most
300 (including exactly 300) continue the loop. -/
theorem claim_C6_upload_failure (α : Type) (oracle : Nat → TxResponse)
    (pre : List α) (tfail : α) (rest : List α)
    (hpre : ∀ i, i < pre.length → (oracle i).status_code ≤ 300)
    (hfail : (oracle pre.length).status_code > 300) :
    upload_transactions oracle (pre ++ tfail :: rest) =
      ⟨pre.map TxCall.submit ++ [TxCall.submit tfail] ++
        (collect_ids oracle 0 pre.length).map TxCall.delete,
       some (oracle pre.length).body,
       collect_ids oracle 0 pre.length⟩ := by
  have h := upload_tx_spec oracle pre tfail rest 0 [] []
    (by simpa using hpre) (by simpa using hfail)
  simpa [upload_transactions] using h

/-- C6 witness: three transactions, the first response has status exactly 300
(continuing, posting id x1), the second has status 301: the second response's
body is persisted, x1 is deleted, and the third transaction is never
submitted. -/
theorem claim_C6_witness :
    upload_transactions fxTxOracle ["t1", "t2", "t3"] =
      ⟨[TxCall.submit "t1", TxCall.submit "t2", TxCall.delete "x1"],
       some "ERR2", ["x1"]⟩ :=
  claim_C6_upload_failure String fxTxOracle ["t1"] "t2" ["t3"]
    (fun i hi => by
      have hi1 : i < 1 := by simpa using hi
      have h0 : i = 0 := by omega
      subst h0
      decide)
    (by decide)

end TargetXero
